import Mathlib

/-!
Shallow embedding of the FPL live-table engine (app.js): the substitution
resolver `calculateLocalAutoSubs`, the provisional bonus allocator
`calculateProvisionalBonus`, the live score calculator `calculateLiveInfo`,
the monthly aggregation from `calculateScores`, and the ranking `sortScores`.
Field and function names follow the source. JS nullable lookups become
`Option`; JS `Map`s become association lists; the stable JS `Array.sort`
becomes a stable insertion sort.
-/

namespace FPL

/-- A player from bootstrap data: id, display name, team id, position
(1=GK, 2=DEF, 3=MID, 4=FWD). -/
structure Player where
  id : Nat
  web_name : String
  team : Nat
  element_type : Nat
deriving Repr, DecidableEq

/-- A fixture: gameweek (`event`), home/away team ids, and status flags. -/
structure Fixture where
  event : Nat
  team_h : Nat
  team_a : Nat
  started : Bool
  finished : Bool
  finished_provisional : Bool
deriving Repr, DecidableEq

/-- One entry of `liveData.elements`: per-player live stats for the
gameweek, with the `stats` object flattened into the record. -/
structure LiveElement where
  id : Nat
  minutes : Nat
  bps : Int
  total_points : Int
  bonus : Nat
deriving Repr, DecidableEq

/-- One roster pick. -/
structure Pick where
  element : Nat
  multiplier : Nat
  is_captain : Bool
deriving Repr, DecidableEq

/-- One automatic substitution record, as pushed by the resolver and as
served upstream in `picks.automatic_subs`. -/
structure AutoSub where
  element_in : Nat
  element_out : Nat
  entry : Nat
  event : Nat
deriving Repr, DecidableEq

/-- The `picks` object for one manager: 15 ordered picks, the active chip,
and the upstream-reported automatic substitutions (absent or a list). -/
structure Picks where
  picks : List Pick
  active_chip : Option String
  automatic_subs : Option (List AutoSub)
  entry : Nat
deriving Repr, DecidableEq

/-- The snapshot state the class holds: `this.players`, `this.liveData.elements`,
`this.fixtures`, `this.currentGameweek`. -/
structure Env where
  players : List Player
  elements : List LiveElement
  fixtures : List Fixture
  currentGameweek : Nat
deriving Repr, DecidableEq

/-- `this.players.get(id)`. -/
def findPlayer (env : Env) (id : Nat) : Option Player :=
  env.players.find? (fun p => p.id == id)

/-- `this.liveData.elements.find(e => e.id === id)`. -/
def findElement (env : Env) (id : Nat) : Option LiveElement :=
  env.elements.find? (fun e => e.id == id)

/-- `liveElement?.stats?.minutes || 0`. -/
def minutesOf (env : Env) (id : Nat) : Nat :=
  match findElement env id with
  | some e => e.minutes
  | none => 0

/-- `this.fixtures.find(f => f.event === this.currentGameweek &&
(f.team_h === team || f.team_a === team))`. -/
def playerFixture (env : Env) (team : Nat) : Option Fixture :=
  env.fixtures.find? (fun f =>
    f.event == env.currentGameweek && (f.team_h == team || f.team_a == team))

/-- `playerFixture?.finished || playerFixture?.finished_provisional`. -/
def fixtureFinishedOf : Option Fixture → Bool
  | some f => f.finished || f.finished_provisional
  | none => false

/-- `benchFixture?.started`. -/
def fixtureStartedOf : Option Fixture → Bool
  | some f => f.started
  | none => false

/-- `Map.set` on an association list keyed by player id. -/
def mapSet (m : List (Nat × Nat)) (k v : Nat) : List (Nat × Nat) :=
  m.filter (fun p => p.1 != k) ++ [(k, v)]

/-- `Map.get` on an association list keyed by player id. -/
def mapGet (m : List (Nat × Nat)) (k : Nat) : Option Nat :=
  (m.find? (fun p => p.1 == k)).map (fun p => p.2)

/-- Insert into an already ordered list, placing `x` after every `y` that
strictly precedes it (`lt y x`). With a stable comparator this reproduces
the stable `Array.sort` of the source. -/
def insertBy (lt : α → α → Bool) (x : α) : List α → List α
  | [] => [x]
  | y :: ys => if lt y x then y :: insertBy lt x ys else x :: y :: ys

/-- Stable sort by the strict-precedence test `lt`, modelling the stable
JS `Array.sort` with a consistent comparator. -/
def sortBy (lt : α → α → Bool) : List α → List α
  | [] => []
  | x :: xs => insertBy lt x (sortBy lt xs)

/-- One entry of `playersInFixture` in `calculateProvisionalBonus`
(the display name carried by the source is dropped as unused). -/
structure BpsEntry where
  id : Nat
  bps : Int
deriving Repr, DecidableEq

/-- The comparator `(a, b) => b.bps - a.bps`: `a` strictly precedes `b`
when `a.bps > b.bps` (descending). -/
def bpsLt (a b : BpsEntry) : Bool := b.bps < a.bps

/-- The `playersInFixture` accumulation of `calculateProvisionalBonus`:
live elements whose player is in the fixture and who have minutes > 0. -/
def playersInFixture (env : Env) (f : Fixture) : List BpsEntry :=
  env.elements.filterMap (fun el =>
    match findPlayer env el.id with
    | some p =>
        if (p.team == f.team_h || p.team == f.team_a) && decide (0 < el.minutes)
        then some { id := el.id, bps := el.bps }
        else none
    | none => none)

/-- The awarding `while` loop of `calculateProvisionalBonus`: group
players tied on BPS, award `4 - position` to each member of the group,
advance position by the group size, stop once position exceeds 3. The
recursion is driven by an explicit iteration bound so that it is
structural; each iteration drops at least one list element, so a bound of
the list length (see `awardLoop`) never runs out. -/
def awardLoopF : Nat → List (Nat × Nat) → Nat → List BpsEntry → List (Nat × Nat)
  | _, m, _, [] => m
  | 0, m, _, _ :: _ => m
  | fuel + 1, m, pos, p :: rest =>
    if pos ≤ 3 then
      awardLoopF fuel
        ((p :: rest.takeWhile (fun q => q.bps == p.bps)).foldl
          (fun acc q => mapSet acc q.id (4 - pos)) m)
        (pos + (p :: rest.takeWhile (fun q => q.bps == p.bps)).length)
        (rest.dropWhile (fun q => q.bps == p.bps))
    else m

/-- The awarding loop of `calculateProvisionalBonus` on a whole list. -/
def awardLoop (m : List (Nat × Nat)) (pos : Nat) (l : List BpsEntry) :
    List (Nat × Nat) :=
  awardLoopF l.length m pos l

/-- The per-fixture body of `calculateProvisionalBonus`: collect eligible
players, sort by BPS descending, and run the award loop when non-empty. -/
def fixtureBonus (env : Env) (m : List (Nat × Nat)) (f : Fixture) : List (Nat × Nat) :=
  let pif := sortBy bpsLt (playersInFixture env f)
  if 0 < pif.length then awardLoop m 1 pif else m

/-- `calculateProvisionalBonus`: over the current-gameweek fixtures that
have started, build the playerId → provisional bonus map. -/
def calculateProvisionalBonus (env : Env) : List (Nat × Nat) :=
  (env.fixtures.filter (fun f => f.event == env.currentGameweek && f.started)).foldl
    (fixtureBonus env) []

/-- Pointwise bump of the `formationCount` object:
`formationCount[t] = (formationCount[t] || 0) + 1`. -/
def bump (fc : Nat → Nat) (t : Nat) : Nat → Nat :=
  fun x => if x == t then fc t + 1 else fc x

/-- The first `starting.forEach` of `calculateLocalAutoSubs`: count the
roles of starting players that do not need a substitution. -/
def initialFormation (env : Env) (starting : List Pick) : Nat → Nat :=
  starting.foldl (fun fc pick =>
    let player := findPlayer env pick.element
    let pfx := match player with
      | some p => playerFixture env p.team
      | none => none
    let needsSub := minutesOf env pick.element == 0 && fixtureFinishedOf pfx
    match player with
    | some p => if needsSub then fc else bump fc p.element_type
    | none => fc) (fun _ => 0)

/-- The inner `for` loop over bench picks in `calculateLocalAutoSubs`:
the first bench candidate that is unused, exists, has a started fixture,
passes the GK pairing rule and the formation checks; `none` when the walk
exhausts the bench. -/
def findBenchSub (env : Env) (player : Player) (used : List Nat) (fc : Nat → Nat) :
    List Pick → Option (Pick × Player)
  | [] => none
  | bp :: rest =>
    if used.contains bp.element then findBenchSub env player used fc rest
    else
      match findPlayer env bp.element with
      | none => findBenchSub env player used fc rest
      | some benchPlayer =>
        if !(fixtureStartedOf (playerFixture env benchPlayer.team)) then
          findBenchSub env player used fc rest
        else if player.element_type == 1 && !(benchPlayer.element_type == 1) then
          findBenchSub env player used fc rest
        else if !(player.element_type == 1) && benchPlayer.element_type == 1 then
          findBenchSub env player used fc rest
        else if player.element_type == 1 then some (bp, benchPlayer)
        else if fc 2 < 3 && benchPlayer.element_type != 2 then
          findBenchSub env player used fc rest
        else if 5 < bump fc benchPlayer.element_type 3 then
          findBenchSub env player used fc rest
        else if 3 < bump fc benchPlayer.element_type 4 then
          findBenchSub env player used fc rest
        else some (bp, benchPlayer)

/-- State threaded through the outer loop of `calculateLocalAutoSubs`:
`usedBenchPlayers`, `formationCount`, and the accumulated `autoSubs`. -/
structure SubState where
  used : List Nat
  fc : Nat → Nat
  subs : List AutoSub

/-- One iteration of the outer `for (const pick of starting)` loop. -/
def processStarter (env : Env) (entry : Nat) (bench : List Pick)
    (st : SubState) (pick : Pick) : SubState :=
  match findPlayer env pick.element with
  | none => st
  | some player =>
    let pfx := playerFixture env player.team
    if 0 < minutesOf env pick.element || !(fixtureFinishedOf pfx) then st
    else
      match findBenchSub env player st.used st.fc bench with
      | none => st
      | some (bp, benchPlayer) =>
        { used := st.used ++ [bp.element]
          fc := bump st.fc benchPlayer.element_type
          subs := st.subs ++ [{ element_in := bp.element, element_out := pick.element,
                                entry := entry, event := env.currentGameweek }] }

/-- The local reconciliation of `calculateLocalAutoSubs`, after the
upstream short-circuit: starting 11 versus bench, in pick order. -/
def localAutoSubsCore (env : Env) (picks : Picks) : List AutoSub :=
  let starting := picks.picks.take 11
  let bench := picks.picks.drop 11
  (starting.foldl (processStarter env picks.entry bench)
    { used := [], fc := initialFormation env starting, subs := [] }).subs

/-- `calculateLocalAutoSubs`: if the upstream list is present and
non-empty it is returned verbatim, otherwise the local reconciliation
runs. -/
def calculateLocalAutoSubs (env : Env) (picks : Picks) : List AutoSub :=
  match picks.automatic_subs with
  | some l => if 0 < l.length then l else localAutoSubsCore env picks
  | none => localAutoSubsCore env picks

/-- The result record of `calculateLiveInfo`. -/
structure LiveInfo where
  played : Nat
  maxPlayers : Nat
  captainName : Option String
  captainPlayed : Bool
  bonusPoints : Nat
  activeChip : Option String
  livePoints : Int
deriving Repr, DecidableEq

/-- The `isActive` test inside `calculateLiveInfo`: starting and not
subbed out, or subbed in, or on the bench under bench boost. -/
def isActivePick (isBenchBoost : Bool) (subbedOut subbedIn : List Nat)
    (e : Nat) (index : Nat) : Bool :=
  (decide (index < 11) && !(subbedOut.contains e)) || subbedIn.contains e ||
    (isBenchBoost && decide (11 ≤ index))

/-- Accumulator of the `activePicks.forEach` in `calculateLiveInfo`. -/
structure LiveAcc where
  played : Nat
  captainName : Option String
  captainPlayed : Bool
  livePoints : Int
deriving Repr, DecidableEq

/-- One iteration of the `activePicks.forEach` loop in `calculateLiveInfo`:
skip inactive picks, add provisional bonus only when the API bonus is
still 0, count the pick when minutes > 0, record the captain. -/
def liveStep (env : Env) (provisionalBonus : List (Nat × Nat)) (isBenchBoost : Bool)
    (subbedOut subbedIn : List Nat) (acc : LiveAcc) (ip : Nat × Pick) : LiveAcc :=
  if !(isActivePick isBenchBoost subbedOut subbedIn ip.2.element ip.1) then acc
  else
    let liveElement := findElement env ip.2.element
    let mins := match liveElement with
      | some el => el.minutes
      | none => 0
    let basePoints : Int := match liveElement with
      | some el => el.total_points
      | none => 0
    let apiBonus : Nat := match liveElement with
      | some el => el.bonus
      | none => 0
    let calcBonus : Nat := (mapGet provisionalBonus ip.2.element).getD 0
    let bonusToAdd : Nat := if 0 < apiBonus then 0 else calcBonus
    let points : Int := basePoints + bonusToAdd
    let acc1 := if 0 < mins then
        { acc with played := acc.played + 1,
                    livePoints := acc.livePoints + points * ip.2.multiplier }
      else acc
    if ip.2.is_captain then
      { acc1 with
          captainName := some (match findPlayer env ip.2.element with
            | some p => p.web_name
            | none => "Unknown")
          captainPlayed := decide (0 < mins) }
    else acc1

/-- `calculateLiveInfo`: provisional bonus, local auto-subs, active-pick
determination, and the live points / played-count accumulation. -/
def calculateLiveInfo (env : Env) (picks : Picks) : LiveInfo :=
  let provisionalBonus := calculateProvisionalBonus env
  let activeChip := picks.active_chip
  let isBenchBoost := activeChip == some "bboost"
  let autoSubs := calculateLocalAutoSubs env picks
  let subbedOut := autoSubs.map (fun s => s.element_out)
  let subbedIn := autoSubs.map (fun s => s.element_in)
  let acc := picks.picks.enum.foldl
    (liveStep env provisionalBonus isBenchBoost subbedOut subbedIn)
    { played := 0, captainName := none, captainPlayed := false, livePoints := 0 }
  { played := acc.played
    maxPlayers := if isBenchBoost then 15 else 11
    captainName := acc.captainName
    captainPlayed := acc.captainPlayed
    bonusPoints := 0
    activeChip := activeChip
    livePoints := acc.livePoints }

/-- One entry of `data.history.current`: a past gameweek and its
confirmed points. -/
structure HistoryEntry where
  event : Nat
  points : Int
deriving Repr, DecidableEq

/-- The per-manager score row assembled by `calculateScores`
(fields not used by the claims are omitted). -/
structure ScoreRow where
  entry : Nat
  total : Int
  gameweekPoints : Int
  monthlyPoints : Int
  previousMonthlyPoints : Int
deriving Repr, DecidableEq

/-- The per-manager body of `calculateScores` for a manager whose data is
present: live gameweek points, and the monthly total as historical points
of the month excluding the current gameweek plus the live points when the
current gameweek is in the month. -/
def calculateScoresEntry (env : Env) (entry : Nat) (total : Int) (picks : Picks)
    (history : List HistoryEntry) (monthGameweeks : List Nat) : ScoreRow :=
  let liveInfo := calculateLiveInfo env picks
  let gameweekPoints := liveInfo.livePoints
  let monthlyPointsBeforeCurrentGW := history.foldl (fun acc h =>
      if monthGameweeks.contains h.event && h.event != env.currentGameweek
      then acc + h.points else acc) 0
  let monthlyPoints := monthlyPointsBeforeCurrentGW +
      (if monthGameweeks.contains env.currentGameweek then gameweekPoints else 0)
  { entry := entry, total := total, gameweekPoints := gameweekPoints,
    monthlyPoints := monthlyPoints,
    previousMonthlyPoints := monthlyPointsBeforeCurrentGW }

/-- The primary sort field of `sortScores`: `monthlyPoints` in the
monthly view, `gameweekPoints` otherwise. -/
def fieldOf (monthlyView : Bool) (s : ScoreRow) : Int :=
  if monthlyView then s.monthlyPoints else s.gameweekPoints

/-- Strict precedence induced by the `sortScores` comparator: primary
field descending, then gameweek points, then career total. -/
def scoreLt (v : Bool) (a b : ScoreRow) : Bool :=
  if fieldOf v a != fieldOf v b then decide (fieldOf v b < fieldOf v a)
  else if a.gameweekPoints != b.gameweekPoints then
    decide (b.gameweekPoints < a.gameweekPoints)
  else decide (b.total < a.total)

/-- `sortScores`: stable sort of the score rows by the comparator. -/
def sortScores (monthlyView : Bool) (scores : List ScoreRow) : List ScoreRow :=
  sortBy (scoreLt monthlyView) scores

/-- Equality of all three comparison keys used by `sortScores`; rows
related by it are ties the stable sort must keep in input order. -/
def keyEq (v : Bool) (s0 s : ScoreRow) : Bool :=
  fieldOf v s == fieldOf v s0 && s.gameweekPoints == s0.gameweekPoints &&
    s.total == s0.total

/-- Record update used to probe the upstream-substitution short-circuit. -/
def setAutomaticSubs (picks : Picks) (s : Option (List AutoSub)) : Picks :=
  { picks with automatic_subs := s }

/-- Eligibility for provisional bonus, as stated by the invariants: the
player id has a live element with minutes > 0, and its player belongs to
a current-gameweek fixture that has started. -/
def eligiblePlayer (env : Env) (k : Nat) : Prop :=
  (∃ el ∈ env.elements, el.id = k ∧ 0 < el.minutes) ∧
  ∃ p, findPlayer env k = some p ∧ ∃ f ∈ env.fixtures,
    f.event = env.currentGameweek ∧ f.started = true ∧
    (p.team = f.team_h ∨ p.team = f.team_a)

/-!
Concrete snapshots. Rosters use a 3-5-2 or 4-5-1 starting formation on
team 1 whose fixture is finished, with bench slots on other teams.
-/

/-- A 3-5-2 roster: GK 1, DEF 2-4, MID 5-9, FWD 10-11, bench GK 12,
bench MID 13, bench FWD 14, bench DEF 15, taken in pick order. -/
def picks352 : List Pick :=
  [⟨1, 1, false⟩, ⟨2, 1, false⟩, ⟨3, 1, false⟩, ⟨4, 1, false⟩,
   ⟨5, 1, false⟩, ⟨6, 1, false⟩, ⟨7, 1, false⟩, ⟨8, 1, false⟩,
   ⟨9, 1, false⟩, ⟨10, 1, false⟩, ⟨11, 1, false⟩,
   ⟨12, 1, false⟩, ⟨13, 1, false⟩, ⟨14, 1, false⟩, ⟨15, 1, false⟩]

/-- Snapshot for the C1 scenario: starter MID 9 finished on 0 minutes,
bench MID 13 in a not-started fixture ahead of bench FWD 14 who played
90 minutes in a finished fixture. -/
def envC1 : Env :=
  { players :=
      [⟨1, "G1", 1, 1⟩, ⟨2, "D2", 1, 2⟩, ⟨3, "D3", 1, 2⟩, ⟨4, "D4", 1, 2⟩,
       ⟨5, "M5", 1, 3⟩, ⟨6, "M6", 1, 3⟩, ⟨7, "M7", 1, 3⟩, ⟨8, "M8", 1, 3⟩,
       ⟨9, "M9", 1, 3⟩, ⟨10, "F10", 1, 4⟩, ⟨11, "F11", 1, 4⟩,
       ⟨12, "G12", 2, 1⟩, ⟨13, "M13", 3, 3⟩, ⟨14, "F14", 5, 4⟩, ⟨15, "D15", 2, 2⟩]
    elements :=
      [⟨1, 90, 0, 2, 0⟩, ⟨2, 90, 0, 2, 0⟩, ⟨3, 90, 0, 2, 0⟩, ⟨4, 90, 0, 2, 0⟩,
       ⟨5, 90, 0, 2, 0⟩, ⟨6, 90, 0, 2, 0⟩, ⟨7, 90, 0, 2, 0⟩, ⟨8, 90, 0, 2, 0⟩,
       ⟨9, 0, 0, 0, 0⟩, ⟨10, 90, 0, 2, 0⟩, ⟨11, 90, 0, 2, 0⟩,
       ⟨12, 0, 0, 0, 0⟩, ⟨13, 0, 0, 0, 0⟩, ⟨14, 90, 0, 6, 0⟩, ⟨15, 90, 0, 1, 0⟩]
    fixtures :=
      [⟨22, 1, 2, true, true, false⟩, ⟨22, 3, 4, false, false, false⟩,
       ⟨22, 5, 6, true, true, false⟩]
    currentGameweek := 22 }

/-- The C1 roster: no chip, no upstream substitution list. -/
def picksC1 : Picks := ⟨picks352, none, none, 1003⟩

/-- Snapshot for the C2 scenario: starter MID 9 finished on 0 minutes;
the first eligible bench candidate is MID 13 whose fixture is finished
and who recorded 0 minutes. -/
def envC2 : Env :=
  { players :=
      [⟨1, "G1", 1, 1⟩, ⟨2, "D2", 1, 2⟩, ⟨3, "D3", 1, 2⟩, ⟨4, "D4", 1, 2⟩,
       ⟨5, "M5", 1, 3⟩, ⟨6, "M6", 1, 3⟩, ⟨7, "M7", 1, 3⟩, ⟨8, "M8", 1, 3⟩,
       ⟨9, "M9", 1, 3⟩, ⟨10, "F10", 1, 4⟩, ⟨11, "F11", 1, 4⟩,
       ⟨12, "G12", 2, 1⟩, ⟨13, "M13", 5, 3⟩, ⟨14, "F14", 2, 4⟩, ⟨15, "D15", 2, 2⟩]
    elements :=
      [⟨1, 90, 0, 2, 0⟩, ⟨2, 90, 0, 2, 0⟩, ⟨3, 90, 0, 2, 0⟩, ⟨4, 90, 0, 2, 0⟩,
       ⟨5, 90, 0, 2, 0⟩, ⟨6, 90, 0, 2, 0⟩, ⟨7, 90, 0, 2, 0⟩, ⟨8, 90, 0, 2, 0⟩,
       ⟨9, 0, 0, 0, 0⟩, ⟨10, 90, 0, 2, 0⟩, ⟨11, 90, 0, 2, 0⟩,
       ⟨12, 0, 0, 0, 0⟩, ⟨13, 0, 0, 0, 0⟩, ⟨14, 90, 0, 5, 0⟩, ⟨15, 90, 0, 1, 0⟩]
    fixtures :=
      [⟨22, 1, 2, true, true, false⟩, ⟨22, 5, 6, true, true, false⟩]
    currentGameweek := 22 }

/-- The C2 roster: no chip; the upstream substitution list is present but
empty, so local resolution runs. -/
def picksC2 : Picks := ⟨picks352, none, some [], 1003⟩

/-- The C6 roster: the C2 scenario with bench boost as the active chip. -/
def picksC6 : Picks := ⟨picks352, some "bboost", some [], 1003⟩

/-- Snapshot for the C5 scenario, a 4-5-1 roster: the only starting FWD
(11) finished on 0 minutes; the first eligible bench candidate is DEF 13
who played 90 minutes. -/
def envC5 : Env :=
  { players :=
      [⟨1, "G1", 1, 1⟩, ⟨2, "D2", 1, 2⟩, ⟨3, "D3", 1, 2⟩, ⟨4, "D4", 1, 2⟩,
       ⟨5, "D5", 1, 2⟩, ⟨6, "M6", 1, 3⟩, ⟨7, "M7", 1, 3⟩, ⟨8, "M8", 1, 3⟩,
       ⟨9, "M9", 1, 3⟩, ⟨10, "M10", 1, 3⟩, ⟨11, "F11", 1, 4⟩,
       ⟨12, "G12", 2, 1⟩, ⟨13, "D13", 5, 2⟩, ⟨14, "M14", 2, 3⟩, ⟨15, "F15", 2, 4⟩]
    elements :=
      [⟨1, 90, 0, 2, 0⟩, ⟨2, 90, 0, 2, 0⟩, ⟨3, 90, 0, 2, 0⟩, ⟨4, 90, 0, 2, 0⟩,
       ⟨5, 90, 0, 2, 0⟩, ⟨6, 90, 0, 2, 0⟩, ⟨7, 90, 0, 2, 0⟩, ⟨8, 90, 0, 2, 0⟩,
       ⟨9, 90, 0, 2, 0⟩, ⟨10, 90, 0, 2, 0⟩, ⟨11, 0, 0, 0, 0⟩,
       ⟨12, 0, 0, 0, 0⟩, ⟨13, 90, 0, 6, 0⟩, ⟨14, 90, 0, 2, 0⟩, ⟨15, 90, 0, 4, 0⟩]
    fixtures :=
      [⟨22, 1, 2, true, true, false⟩, ⟨22, 5, 6, true, true, false⟩]
    currentGameweek := 22 }

/-- The C5 roster: no chip, no upstream substitution list. -/
def picksC5 : Picks := ⟨picks352, none, none, 1003⟩

/-- Snapshot for the C3 scenario: one live fixture with players 21 and 22
on the same team; player 21 already has official bonus 2, player 22 has
the highest BPS and official bonus 0. -/
def envC3 : Env :=
  { players := [⟨21, "A", 7, 3⟩, ⟨22, "B", 7, 3⟩]
    elements := [⟨21, 90, 30, 10, 2⟩, ⟨22, 90, 40, 5, 0⟩]
    fixtures := [⟨22, 7, 8, true, false, false⟩]
    currentGameweek := 22 }

/-- A roster holding only player 22, whose own official bonus is 0. -/
def picksC3 : Picks := ⟨[⟨22, 1, false⟩], none, none, 7⟩

/-- Snapshot for the C4 example: six players of one started fixture with
BPS values 10, 10, 8, 8, 8, 5, all with minutes played. -/
def env4 : Env :=
  { players :=
      [⟨1, "P1", 1, 3⟩, ⟨2, "P2", 1, 3⟩, ⟨3, "P3", 1, 3⟩,
       ⟨4, "P4", 1, 3⟩, ⟨5, "P5", 1, 3⟩, ⟨6, "P6", 1, 3⟩]
    elements :=
      [⟨1, 90, 10, 0, 0⟩, ⟨2, 90, 10, 0, 0⟩, ⟨3, 90, 8, 0, 0⟩,
       ⟨4, 90, 8, 0, 0⟩, ⟨5, 90, 8, 0, 0⟩, ⟨6, 90, 5, 0, 0⟩]
    fixtures := [⟨22, 1, 2, true, false, false⟩]
    currentGameweek := 22 }

/-- Snapshot for the C8 example: one pick scoring 63 live points in
gameweek 22. -/
def env8 : Env :=
  { players := [⟨40, "X", 1, 3⟩]
    elements := [⟨40, 90, 0, 63, 0⟩]
    fixtures := []
    currentGameweek := 22 }

/-- The C8 roster: a single pick of player 40 with multiplier 1. -/
def picks8 : Picks := ⟨[⟨40, 1, false⟩], none, none, 1003⟩

/-!
Lemmas about the stable insertion sort, generic in the comparator.
-/

theorem mem_insertBy {α : Type} {lt : α → α → Bool} {x a : α} {l : List α} :
    a ∈ insertBy lt x l ↔ a = x ∨ a ∈ l := by
  induction l with
  | nil => simp [insertBy]
  | cons y ys ih =>
    simp only [insertBy]
    split
    · rw [List.mem_cons, ih, List.mem_cons]
      tauto
    · exact List.mem_cons

theorem perm_insertBy {α : Type} (lt : α → α → Bool) (x : α) (l : List α) :
    (insertBy lt x l).Perm (x :: l) := by
  induction l with
  | nil => simp [insertBy]
  | cons y ys ih =>
    simp only [insertBy]
    split
    · exact (ih.cons y).trans (List.Perm.swap x y ys)
    · exact List.Perm.refl _

theorem perm_sortBy {α : Type} (lt : α → α → Bool) (l : List α) :
    (sortBy lt l).Perm l := by
  induction l with
  | nil => simp [sortBy]
  | cons x xs ih => exact (perm_insertBy lt x (sortBy lt xs)).trans (ih.cons x)

theorem pairwise_insertBy {α : Type} {lt : α → α → Bool}
    (hasym : ∀ a b, lt a b = true → lt b a = false)
    (hnt : ∀ a b c, lt a b = false → lt b c = false → lt a c = false)
    (x : α) {l : List α}
    (hl : l.Pairwise (fun a b => lt b a = false)) :
    (insertBy lt x l).Pairwise (fun a b => lt b a = false) := by
  induction l with
  | nil => simp [insertBy]
  | cons y ys ih =>
    rcases List.pairwise_cons.mp hl with ⟨hy, hys⟩
    simp only [insertBy]
    split
    case isTrue h =>
      refine List.pairwise_cons.mpr ⟨?_, ih hys⟩
      intro z hz
      rcases mem_insertBy.mp hz with rfl | hz
      · exact hasym y z h
      · exact hy z hz
    case isFalse h =>
      refine List.pairwise_cons.mpr ⟨?_, hl⟩
      intro z hz
      rcases List.mem_cons.mp hz with rfl | hz
      · exact Bool.eq_false_iff.mpr h
      · exact hnt z y x (hy z hz) (Bool.eq_false_iff.mpr h)

theorem pairwise_sortBy {α : Type} {lt : α → α → Bool}
    (hasym : ∀ a b, lt a b = true → lt b a = false)
    (hnt : ∀ a b c, lt a b = false → lt b c = false → lt a c = false)
    (l : List α) :
    (sortBy lt l).Pairwise (fun a b => lt b a = false) := by
  induction l with
  | nil => simp [sortBy]
  | cons x xs ih => exact pairwise_insertBy hasym hnt x ih

theorem filter_insertBy {α : Type} {lt : α → α → Bool} (p : α → Bool) (x : α)
    (l : List α) (hk : ∀ y, p y = true → p x = true → lt y x = false) :
    (insertBy lt x l).filter p = if p x then x :: l.filter p else l.filter p := by
  induction l with
  | nil => cases hpx : p x <;> simp [insertBy, List.filter_cons, hpx]
  | cons y ys ih =>
    simp only [insertBy]
    split
    case isTrue h =>
      by_cases hx : p x = true
      · have hpy : p y = false := by
          rcases Bool.eq_false_or_eq_true (p y) with h1 | h1
          · exact absurd (hk y h1 hx) (by simp [h])
          · exact h1
        simp [List.filter_cons, hpy, hx, ih]
      · have hx0 : p x = false := Bool.eq_false_iff.mpr hx
        simp only [List.filter_cons, ih, hx0]
        split <;> simp
    case isFalse h =>
      by_cases hx : p x = true
      · simp [List.filter_cons, hx]
      · have hx0 : p x = false := Bool.eq_false_iff.mpr hx
        simp [List.filter_cons, hx0]

theorem filter_sortBy {α : Type} {lt : α → α → Bool} (p : α → Bool) (l : List α)
    (hk : ∀ x y, p x = true → p y = true → lt y x = false) :
    (sortBy lt l).filter p = l.filter p := by
  induction l with
  | nil => simp [sortBy]
  | cons x xs ih =>
    simp only [sortBy]
    rw [filter_insertBy p x _ (fun y hy hx => hk x y hx hy), ih]
    by_cases hx : p x = true
    · simp [List.filter_cons, hx]
    · have hx0 : p x = false := Bool.eq_false_iff.mpr hx
      simp [List.filter_cons, hx0]

theorem scoreLt_asymm (v : Bool) (a b : ScoreRow)
    (h : scoreLt v a b = true) : scoreLt v b a = false := by
  simp only [scoreLt, bne_iff_ne, ne_eq] at h ⊢
  split_ifs at h ⊢ <;> simp_all <;> omega

theorem scoreLt_negtrans (v : Bool) (a b c : ScoreRow)
    (hab : scoreLt v a b = false) (hbc : scoreLt v b c = false) :
    scoreLt v a c = false := by
  simp only [scoreLt, bne_iff_ne, ne_eq] at hab hbc ⊢
  split_ifs at hab hbc ⊢ <;> simp_all <;> omega

theorem keyEq_lt_false (v : Bool) (s0 x y : ScoreRow)
    (hx : keyEq v s0 x = true) (hy : keyEq v s0 y = true) :
    scoreLt v y x = false := by
  simp only [keyEq, Bool.and_eq_true, beq_iff_eq] at hx hy
  simp only [scoreLt, bne_iff_ne, ne_eq]
  split_ifs <;> simp_all

theorem bpsLt_asymm (a b : BpsEntry) (h : bpsLt a b = true) : bpsLt b a = false := by
  simp only [bpsLt, decide_eq_true_eq, decide_eq_false_iff_not, not_lt] at h ⊢
  omega

theorem bpsLt_negtrans (a b c : BpsEntry)
    (hab : bpsLt a b = false) (hbc : bpsLt b c = false) : bpsLt a c = false := by
  simp only [bpsLt, decide_eq_false_iff_not, not_lt] at hab hbc ⊢
  omega

/-- C1, counterexample. In the claimed scenario — starting MID 9 with a
finished fixture and 0 minutes, bench MID 13 whose fixture has not
started ahead of bench FWD 14 who played — `calculateLocalAutoSubs` does
not halt pending on candidate 13: it skips the not-started candidate and
returns a confirmed substitution bringing in the FWD, so the claimed
PENDING state and unconfirmed FWD are refuted. -/
theorem c1_counterexample :
    picksC1.active_chip = none ∧ picksC1.automatic_subs = none ∧
    minutesOf envC1 9 = 0 ∧
    fixtureFinishedOf (playerFixture envC1 1) = true ∧
    (findPlayer envC1 13).map Player.element_type = some 3 ∧
    fixtureStartedOf (playerFixture envC1 3) = false ∧
    (findPlayer envC1 14).map Player.element_type = some 4 ∧
    0 < minutesOf envC1 14 ∧
    calculateLocalAutoSubs envC1 picksC1 = [⟨14, 9, 1003, 22⟩] := by
  decide

/-- C1, amended. A bench candidate whose fixture has not started is
skipped by the bench walk (it is treated as ineligible), and the search
continues with the later bench candidates; no pending state exists. -/
theorem c1_amended (env : Env) (sp : Player) (used : List Nat) (fc : Nat → Nat)
    (bp : Pick) (rest : List Pick) (bpl : Player)
    (h1 : findPlayer env bp.element = some bpl)
    (h2 : fixtureStartedOf (playerFixture env bpl.team) = false) :
    findBenchSub env sp used fc (bp :: rest) = findBenchSub env sp used fc rest := by
  by_cases hu : bp.element ∈ used
  · simp [findBenchSub, hu]
  · simp [findBenchSub, hu, h1, h2]

/-- C1, witness for the amended theorem: in the C1 snapshot the walk over
the bench starting at the not-started MID 13 equals the walk without it. -/
theorem c1_amended_witness :
    findBenchSub envC1 ⟨9, "M9", 1, 3⟩ [] (initialFormation envC1 (picksC1.picks.take 11))
      [⟨13, 1, false⟩, ⟨14, 1, false⟩] =
    findBenchSub envC1 ⟨9, "M9", 1, 3⟩ [] (initialFormation envC1 (picksC1.picks.take 11))
      [⟨14, 1, false⟩] :=
  c1_amended envC1 ⟨9, "M9", 1, 3⟩ [] (initialFormation envC1 (picksC1.picks.take 11))
    ⟨13, 1, false⟩ [⟨14, 1, false⟩] ⟨13, "M13", 3, 3⟩ (by decide) (by decide)

/-- C2, code-bug evaluation. Bench candidate 13 has a finished fixture
and 0 minutes, yet `calculateLocalAutoSubs` confirms it as the player-in:
the resolver checks only that the bench fixture has started, never the
bench minutes, violating the claimed invariant. -/
theorem c2_code_bug :
    minutesOf envC2 13 = 0 ∧
    fixtureFinishedOf (playerFixture envC2 5) = true ∧
    calculateLocalAutoSubs envC2 picksC2 = [⟨13, 9, 1003, 22⟩] := by
  decide

/-- C3, counterexample. Players 21 and 22 share fixture (7 vs 8); player
21 has confirmed official bonus 2, yet player 22 (own bonus 0, top BPS)
still receives provisional bonus 3 inside `calculateLiveInfo`: its live
points are 5 + 3 = 8, so official bonus in the fixture does not suppress
provisional bonus for other players of the fixture. -/
theorem c3_counterexample :
    (findElement envC3 21).map LiveElement.bonus = some 2 ∧
    (findPlayer envC3 21).map Player.team = some 7 ∧
    (findPlayer envC3 22).map Player.team = some 7 ∧
    playerFixture envC3 7 = some ⟨22, 7, 8, true, false, false⟩ ∧
    (findElement envC3 22).map LiveElement.total_points = some 5 ∧
    (findElement envC3 22).map LiveElement.bonus = some 0 ∧
    mapGet (calculateProvisionalBonus envC3) 22 = some 3 ∧
    (calculateLiveInfo envC3 picksC3).livePoints = 8 := by
  decide

/-- C3, amended. Provisional-bonus suppression is per player, not per
fixture: for a roster slot holding a player who played, the live points
are the base points plus the provisional bonus exactly when that player
own official bonus is 0 — a teammate having official bonus does not
suppress it. -/
theorem c3_amended (env : Env) (e : Nat) (el : LiveElement) (mult : Nat) (entry : Nat)
    (h1 : findElement env e = some el) (h2 : 0 < el.minutes) :
    (calculateLiveInfo env ⟨[⟨e, mult, false⟩], none, none, entry⟩).livePoints =
      (el.total_points +
        ((if 0 < el.bonus then 0
          else (mapGet (calculateProvisionalBonus env) e).getD 0 : Nat) : Int)) * mult := by
  have hmin : minutesOf env e = el.minutes := by
    simp [minutesOf, h1]
  have hsubs : calculateLocalAutoSubs env ⟨[⟨e, mult, false⟩], none, none, entry⟩ = [] := by
    cases hfp : findPlayer env e <;>
      simp [calculateLocalAutoSubs, localAutoSubsCore, processStarter, hfp, hmin, h2]
  simp [calculateLiveInfo, hsubs, liveStep, isActivePick, h1, h2, hmin]

/-- C3, witness for the amended theorem: player 21 of the C3 snapshot has
official bonus 2, so no provisional bonus is added and the slot scores
its base 10 points. -/
theorem c3_amended_witness :
    0 < (⟨21, 90, 30, 10, 2⟩ : LiveElement).minutes ∧
    (calculateLiveInfo envC3 ⟨[⟨21, 1, false⟩], none, none, 7⟩).livePoints = 10 := by
  refine ⟨by decide, ?_⟩
  rw [c3_amended envC3 21 ⟨21, 90, 30, 10, 2⟩ 1 7 (by decide) (by decide)]
  decide

/-- C4. The provisional allocation sorts by BPS descending (the sorted
list is pairwise non-ascending in BPS), and on the worked example with
BPS values 10, 10, 8, 8, 8, 5 it awards 3, 3, 1, 1, 1: the two tied
first both get 3, the position advances to 3, the three tied third all
get 1, the position advances past 3, the player with 5 gets nothing, and
no player receives 2. -/
theorem c4_bonus_tie_handling :
    (∀ l : List BpsEntry,
      (sortBy bpsLt l).Pairwise (fun a b => bpsLt b a = false)) ∧
    mapGet (calculateProvisionalBonus env4) 1 = some 3 ∧
    mapGet (calculateProvisionalBonus env4) 2 = some 3 ∧
    mapGet (calculateProvisionalBonus env4) 3 = some 1 ∧
    mapGet (calculateProvisionalBonus env4) 4 = some 1 ∧
    mapGet (calculateProvisionalBonus env4) 5 = some 1 ∧
    mapGet (calculateProvisionalBonus env4) 6 = none ∧
    (calculateProvisionalBonus env4).all (fun kv => kv.2 != 2) = true := by
  refine ⟨fun l => pairwise_sortBy bpsLt_asymm bpsLt_negtrans l, ?_⟩
  decide

/-- C5, code-bug evaluation. In a 4-5-1 roster whose only FWD (11)
finished on 0 minutes, the live FWD count is 0, at or below the claimed
minimum of 1, so the claim requires a FWD replacement; the resolver
nevertheless confirms DEF 13, leaving the formation with no forward:
only the DEF minimum of 3 is ever checked. -/
theorem c5_code_bug :
    (findPlayer envC5 11).map Player.element_type = some 4 ∧
    (findPlayer envC5 13).map Player.element_type = some 2 ∧
    initialFormation envC5 (picksC5.picks.take 11) 4 = 0 ∧
    calculateLocalAutoSubs envC5 picksC5 = [⟨13, 11, 1003, 22⟩] ∧
    bump (initialFormation envC5 (picksC5.picks.take 11)) 2 4 = 0 := by
  decide

/-- C6, code-bug evaluation. With bench boost active the resolver still
computes and returns a non-empty substitution list — it never inspects
the active chip — while the calculator does count all 15 slots
(`maxPlayers = 15`). -/
theorem c6_code_bug :
    picksC6.active_chip = some "bboost" ∧
    calculateLocalAutoSubs envC2 picksC6 = [⟨13, 9, 1003, 22⟩] ∧
    (calculateLiveInfo envC2 picksC6).maxPlayers = 15 := by
  decide

/-- C7. A present, non-empty upstream substitution list is returned
verbatim by `calculateLocalAutoSubs`; a present-but-empty list is not
authoritative and the local resolution result is returned instead — and
in the C2 snapshot, whose upstream list is the empty list, the local
resolution indeed produces a substitution. -/
theorem c7_upstream_subs (env : Env) (picks : Picks) (s : AutoSub) (l : List AutoSub) :
    calculateLocalAutoSubs env (setAutomaticSubs picks (some (s :: l))) = s :: l ∧
    calculateLocalAutoSubs env (setAutomaticSubs picks (some [])) =
      localAutoSubsCore env (setAutomaticSubs picks (some [])) ∧
    picksC2.automatic_subs = some [] ∧
    calculateLocalAutoSubs envC2 picksC2 = [⟨13, 9, 1003, 22⟩] := by
  refine ⟨?_, ?_, by decide, by decide⟩
  · simp [calculateLocalAutoSubs, setAutomaticSubs]
  · simp [calculateLocalAutoSubs, setAutomaticSubs]

theorem foldl_if_sum (cond : HistoryEntry → Bool) (l : List HistoryEntry) (a : Int) :
    l.foldl (fun acc h => if cond h then acc + h.points else acc) a =
      a + ((l.filter cond).map (fun h => h.points)).sum := by
  induction l generalizing a with
  | nil => simp
  | cons h t ih =>
    simp only [List.foldl_cons, List.filter_cons]
    by_cases hc : cond h = true
    · simp only [hc, if_true, ih, List.map_cons, List.sum_cons]
      omega
    · have hc0 : cond h = false := Bool.eq_false_iff.mpr hc
      simp [hc0, ih]

/-- C8. The monthly total equals the sum of the historical points of the
gameweeks of the period other than the current gameweek, plus the current
gameweek live total when the current gameweek belongs to the period; on
history {21 ↦ 50}, current gameweek 22 with live total 63 and period
{21, 22}, the total is 113. -/
theorem c8_monthly_total :
    (∀ (env : Env) (entry : Nat) (total : Int) (picks : Picks)
        (history : List HistoryEntry) (month : List Nat),
      (calculateScoresEntry env entry total picks history month).monthlyPoints =
        ((history.filter (fun h => month.contains h.event &&
            h.event != env.currentGameweek)).map (fun h => h.points)).sum +
          (if month.contains env.currentGameweek
           then (calculateLiveInfo env picks).livePoints else 0)) ∧
    (calculateLiveInfo env8 picks8).livePoints = 63 ∧
    (calculateScoresEntry env8 1003 500 picks8 [⟨21, 50⟩] [21, 22]).monthlyPoints = 113 := by
  refine ⟨?_, by decide, by decide⟩
  intro env entry total picks history month
  have hf := foldl_if_sum
    (fun h => month.contains h.event && h.event != env.currentGameweek) history 0
  simp only [calculateScoresEntry]
  rw [hf]
  omega

theorem find?_filter_ne (m : List (Nat × Nat)) (k : Nat) :
    (m.filter (fun p => p.1 != k)).find? (fun p => p.1 == k) = none := by
  rw [List.find?_eq_none]
  intro x hx
  have h2 := (List.mem_filter.mp hx).2
  simp only [bne_iff_ne, ne_eq] at h2
  simp [h2]

theorem find?_filter_keep (m : List (Nat × Nat)) (k k' : Nat) (h : k' ≠ k) :
    (m.filter (fun p => p.1 != k)).find? (fun p => p.1 == k') =
      m.find? (fun p => p.1 == k') := by
  induction m with
  | nil => rfl
  | cons x t ih =>
    by_cases hx : x.1 = k
    · have hxk2 : (k == k') = false := beq_eq_false_iff_ne.mpr fun he => h he.symm
      simp [List.filter_cons, List.find?_cons, hx, hxk2, ih]
    · have hxk : (x.1 != k) = true := by simp [hx]
      cases hx2 : x.1 == k' <;>
        simp [List.filter_cons, List.find?_cons, hxk, hx2, ih]

theorem mapGet_mapSet (m : List (Nat × Nat)) (k v k' : Nat) :
    mapGet (mapSet m k v) k' = if k' = k then some v else mapGet m k' := by
  by_cases h : k' = k
  · subst h
    rw [if_pos rfl]
    simp only [mapGet, mapSet, List.find?_append, find?_filter_ne, Option.none_or]
    simp [List.find?]
  · rw [if_neg h]
    simp only [mapGet, mapSet, List.find?_append, find?_filter_keep m k k' h]
    have hk0 : (k == k') = false := beq_eq_false_iff_ne.mpr fun he => h he.symm
    have hk : List.find? (fun p => p.1 == k') [(k, v)] = none := by
      simp [List.find?_cons, hk0]
    rw [hk, Option.or_none]

theorem mapGet_foldl_group (b : Nat) (g : List BpsEntry) (m : List (Nat × Nat)) (k v : Nat)
    (h : mapGet (g.foldl (fun acc q => mapSet acc q.id b) m) k = some v) :
    mapGet m k = some v ∨ (v = b ∧ ∃ q ∈ g, q.id = k) := by
  induction g generalizing m with
  | nil => exact Or.inl h
  | cons q g' ih =>
    simp only [List.foldl_cons] at h
    rcases ih (mapSet m q.id b) h with h1 | ⟨hv, q', hq', hid⟩
    · rw [mapGet_mapSet] at h1
      split_ifs at h1 with hk
      · right
        exact ⟨(Option.some.inj h1).symm, q, List.mem_cons_self q g', hk.symm⟩
      · exact Or.inl h1
    · exact Or.inr ⟨hv, q', List.mem_cons_of_mem q hq', hid⟩

theorem awardLoopF_invariant (Q : Nat → Prop) :
    ∀ (fuel : Nat) (l : List BpsEntry) (m : List (Nat × Nat)) (pos : Nat),
      1 ≤ pos →
      (∀ k v, mapGet m k = some v → (v = 1 ∨ v = 2 ∨ v = 3) ∧ Q k) →
      (∀ q ∈ l, Q q.id) →
      ∀ k v, mapGet (awardLoopF fuel m pos l) k = some v →
        (v = 1 ∨ v = 2 ∨ v = 3) ∧ Q k := by
  intro fuel
  induction fuel with
  | zero =>
    intro l m pos hpos hm hl k v h
    cases l <;> exact hm k v h
  | succ fuel ih =>
    intro l m pos hpos hm hl k v h
    cases l with
    | nil => exact hm k v h
    | cons p rest =>
      simp only [awardLoopF] at h
      by_cases h3 : pos ≤ 3
      · rw [if_pos h3] at h
        refine ih _ _ _ (by omega) ?_ ?_ k v h
        · intro k' v' hk'
          rcases mapGet_foldl_group (4 - pos) _ m k' v' hk' with h4 | ⟨hv, q, hq, hid⟩
          · exact hm k' v' h4
          · refine ⟨by omega, ?_⟩
            have hq2 : q ∈ p :: rest := by
              rcases List.mem_cons.mp hq with rfl | hq3
              · exact List.mem_cons_self _ _
              · exact List.mem_cons_of_mem _ ((List.takeWhile_sublist _).subset hq3)
            exact hid ▸ hl q hq2
        · intro q hq
          exact hl q (List.mem_cons_of_mem _ ((List.dropWhile_sublist _).subset hq))
      · rw [if_neg h3] at h
        exact hm k v h

theorem mem_playersInFixture (env : Env) (f : Fixture) (q : BpsEntry)
    (hq : q ∈ playersInFixture env f) :
    (∃ el ∈ env.elements, el.id = q.id ∧ 0 < el.minutes) ∧
    ∃ p, findPlayer env q.id = some p ∧ (p.team = f.team_h ∨ p.team = f.team_a) := by
  rcases List.mem_filterMap.mp hq with ⟨el, hel, hsome⟩
  revert hsome
  cases hfp : findPlayer env el.id with
  | none => intro hsome; cases hsome
  | some p =>
    intro hsome
    dsimp only at hsome
    split_ifs at hsome with hc
    obtain rfl := (Option.some.inj hsome)
    simp only [Bool.and_eq_true, Bool.or_eq_true, beq_iff_eq, decide_eq_true_eq] at hc
    exact ⟨⟨el, hel, rfl, hc.2⟩, p, hfp, hc.1⟩

theorem fixtureBonus_invariant (env : Env) (f : Fixture) (m : List (Nat × Nat))
    (hf : f ∈ env.fixtures) (hev : f.event = env.currentGameweek) (hst : f.started = true)
    (hm : ∀ k v, mapGet m k = some v → (v = 1 ∨ v = 2 ∨ v = 3) ∧ eligiblePlayer env k) :
    ∀ k v, mapGet (fixtureBonus env m f) k = some v →
      (v = 1 ∨ v = 2 ∨ v = 3) ∧ eligiblePlayer env k := by
  intro k v h
  unfold fixtureBonus awardLoop at h
  dsimp only at h
  split_ifs at h with hlen
  · refine awardLoopF_invariant (eligiblePlayer env) _ _ m 1 (by omega) hm ?_ k v h
    intro q hq
    have hq2 : q ∈ playersInFixture env f := (perm_sortBy bpsLt _).mem_iff.mp hq
    rcases mem_playersInFixture env f q hq2 with ⟨hel, p, hp, hteam⟩
    exact ⟨hel, p, hp, f, hf, hev, hst, hteam⟩
  · exact hm k v h

theorem foldl_fixtureBonus_invariant (env : Env) :
    ∀ (fs : List Fixture) (m : List (Nat × Nat)),
      (∀ f ∈ fs, f ∈ env.fixtures ∧ f.event = env.currentGameweek ∧ f.started = true) →
      (∀ k v, mapGet m k = some v → (v = 1 ∨ v = 2 ∨ v = 3) ∧ eligiblePlayer env k) →
      ∀ k v, mapGet (fs.foldl (fixtureBonus env) m) k = some v →
        (v = 1 ∨ v = 2 ∨ v = 3) ∧ eligiblePlayer env k := by
  intro fs
  induction fs with
  | nil => intro m hfs hm; exact hm
  | cons f fs ih =>
    intro m hfs hm
    simp only [List.foldl_cons]
    refine ih _ (fun g hg => hfs g (List.mem_cons_of_mem f hg)) ?_
    rcases hfs f (List.mem_cons_self f fs) with ⟨h1, h2, h3⟩
    exact fixtureBonus_invariant env f m h1 h2 h3 hm

/-- C10. Every entry of the provisional bonus map has value 1, 2 or 3,
and its player id is eligible: it has a live element with minutes > 0
and its player belongs to a started current-gameweek fixture; players of
unstarted fixtures never appear. -/
theorem c10_provisional_invariant (env : Env) (k v : Nat)
    (h : mapGet (calculateProvisionalBonus env) k = some v) :
    (v = 1 ∨ v = 2 ∨ v = 3) ∧ eligiblePlayer env k := by
  unfold calculateProvisionalBonus at h
  refine foldl_fixtureBonus_invariant env _ [] ?_ ?_ k v h
  · intro f hf
    rcases List.mem_filter.mp hf with ⟨h1, h2⟩
    simp only [Bool.and_eq_true, beq_iff_eq] at h2
    exact ⟨h1, h2.1, h2.2⟩
  · intro k v h
    simp [mapGet, List.find?] at h

/-- C10, witness: in the C4 snapshot player 1 receives provisional bonus
3 and is eligible. -/
theorem c10_witness :
    (3 = 1 ∨ 3 = 2 ∨ 3 = 3) ∧ eligiblePlayer env4 1 :=
  c10_provisional_invariant env4 1 3 (by decide)

/-- C9. `sortScores` orders the rows so that no later row strictly
precedes an earlier one under the comparator (primary field descending,
then gameweek points, then career total), is a permutation of the input,
and is stable: rows tied on all three keys keep their input order. -/
theorem c9_ranking (v : Bool) (l : List ScoreRow) :
    (sortScores v l).Pairwise (fun a b => scoreLt v b a = false) ∧
    (sortScores v l).Perm l ∧
    ∀ s0, (sortScores v l).filter (keyEq v s0) = l.filter (keyEq v s0) := by
  refine ⟨pairwise_sortBy (scoreLt_asymm v) (scoreLt_negtrans v) l,
    perm_sortBy (scoreLt v) l, fun s0 => ?_⟩
  exact filter_sortBy (keyEq v s0) l (fun x y hx hy => keyEq_lt_false v s0 x y hx hy)

end FPL
